import Mathlib

/-!
Verification of the GeoNode Resource Lifecycle and Permission Workflow Engine
(`geonode/resource/manager.py`, class `ResourceManager`).

The engine is embedded shallowly:

* the metadata store is a list of `Resource` records (`ResourceBase` rows),
* the processing state machine (`set_processing_state` / `set_dirty_state`)
  is explicit state passing on that list,
* the concrete resource manager, the storage manager and the other external
  collaborators are an oracle `Backend` of boolean outcomes: a `true` flag
  means the corresponding delegated call returns normally, `false` means it
  raises (or, where the code checks a boolean result, returns `false`),
* Python exceptions are explicit `Except Err` values; a Django
  `transaction.atomic` block is modelled by snapshotting the record list at
  block entry and restoring it when an exception escapes the block,
* every mutation and delegated call is also recorded in an event log, so
  that "performs no second insert", "invokes delete", "no trailing update"
  and similar observational claims can be stated.

Each operation definition follows the corresponding Python method line by
line; line numbers in comments refer to `geonode/resource/manager.py`.
-/

set_option autoImplicit false

deriving instance DecidableEq for Except

namespace GeoNode

/-- Processing states of a resource (`geonode.base.enumerations.STATE_*`
as used by `manager.py`: RUNNING, PROCESSED, INVALID). -/
inductive PState
  | running
  | processed
  | invalid
  deriving DecidableEq, Repr

/-- The concrete resource classes the manager dispatches on
(`Dataset`, `Document`, `Map`, other `ResourceBase` subtypes). -/
inductive RClass
  | dataset
  | document
  | map
  | other
  deriving DecidableEq, Repr

/-- A `ResourceBase` row.  `isVector` is `Dataset.is_vector()` (meaningful for
datasets only); `hasFiles` models a non-empty `files` field and
`thumbMissing` models `thumbnail_url == static(MISSING_THUMB)`. -/
structure Resource where
  uuid : String
  rclass : RClass
  isVector : Bool
  state : PState
  dirty : Bool
  isApproved : Bool
  isPublished : Bool
  hasFiles : Bool
  thumbMissing : Bool
  deriving DecidableEq, Repr

/-- User principals of a perm spec.  Modelled from the spec (the guardian
user model is not under src/): "AnonymousUser" (or the resolved anonymous
user identity, `get_anonymous_user()`) is the single distinguished
anonymous pseudo-principal of the canonical expanded form. -/
inductive UserP
  | anonymousUser
  | named (name : String)
  deriving DecidableEq, Repr

/-- Group principals of a perm spec.  Modelled from the spec: the
`anonymous` group and the configured registered-members group are
distinguished; all other groups are named. -/
inductive GroupP
  | anonymousGroup
  | registeredMembers
  | named (name : String)
  deriving DecidableEq, Repr

/-- A perm spec in expanded form: `{"users": {...}, "groups": {...}}`.
Dictionaries are association lists in insertion order (Python `dict`
semantics). -/
structure PermSpec where
  users : List (UserP × List String)
  groups : List (GroupP × List String)
  deriving DecidableEq, Repr

/-! ### Association-list (Python `dict`) helpers -/

/-- `d.get(k)`: first binding of `k`. -/
def alookup {κ α : Type} [DecidableEq κ] (l : List (κ × α)) (k : κ) : Option α :=
  (l.find? (fun p => decide (p.1 = k))).map Prod.snd

/-- `d[k] = v`: replace the binding in place if present, else append
(Python dict assignment preserves insertion order). -/
def ainsert {κ α : Type} [DecidableEq κ] (l : List (κ × α)) (k : κ) (v : α) :
    List (κ × α) :=
  if (alookup l k).isSome then
    l.map (fun p => if p.1 = k then (k, v) else p)
  else
    l ++ [(k, v)]

/-- `d.pop(k)`. -/
def aerase {κ α : Type} [DecidableEq κ] (l : List (κ × α)) (k : κ) :
    List (κ × α) :=
  l.filter (fun p => decide (p.1 ≠ k))

/-- `list(set(a + b))`: the Python union of two token lists; the model
fixes the (irrelevant) iteration order by deduplicating `a ++ b`. -/
def pyUnion (a b : List String) : List String := (a ++ b).dedup

/-! ### Engine state: metadata store plus observable event log -/

/-- Observable effects of the engine: processing-state transitions, record
writes, and calls delegated to the concrete resource manager or to other
collaborators. -/
inductive Event
  | stateMark (uuid : String) (s : PState)
  | dirtyMark (uuid : String)
  | insertRec (uuid : String)
  | removeBase (uuid : String)
  | backendCreate (uuid : String)
  | backendDelete (uuid : String)
  | backendUpdate (uuid : String)
  | backendCopy (uuid : String)
  | backendAppend (uuid : String)
  | backendSetPerms (uuid : String)
  | backendSetThumb (uuid : String)
  | backendRemovePerms (uuid : String)
  | cascade (step : String)
  | permRowsDeleted (uuid : String)
  | applyPerms (uuid : String) (perms : PermSpec)
  | thumbTask (uuid : String)
  deriving DecidableEq, Repr

/-- The observable state: the `ResourceBase` table and the event log. -/
structure St where
  db : List Resource
  log : List Event
  deriving DecidableEq, Repr

/-- Outcome oracle for every call the engine delegates to collaborators
(the concrete resource manager, guardian, storage manager, pinax, the
upload app, ...).  `true` means the call returns normally; `false` means
it raises an exception (or, where the code checks a boolean result,
returns `False`). -/
structure Backend where
  existsRes : Bool
  createOk : Bool
  deleteOk : Bool
  realDeleteOk : Bool
  updateOk : Bool
  xmlReadOk : Bool
  storersOk : Bool
  tasksOk : Bool
  copyOk : Bool
  storageCopyOk : Bool
  appendOk : Bool
  removePermsOk : Bool
  setPermsInternalOk : Bool
  setPermsOk : Bool
  setThumbOk : Bool
  mapLayerOk : Bool
  ratingOk : Bool
  uploadOk : Bool
  stylesOk : Bool
  harvesterOk : Bool
  deriving DecidableEq, Repr

/-- The oracle in which every delegated call succeeds. -/
def allOk : Backend :=
  { existsRes := true, createOk := true, deleteOk := true, realDeleteOk := true,
    updateOk := true, xmlReadOk := true, storersOk := true, tasksOk := true,
    copyOk := true, storageCopyOk := true, appendOk := true, removePermsOk := true,
    setPermsInternalOk := true, setPermsOk := true, setThumbOk := true,
    mapLayerOk := true, ratingOk := true, uploadOk := true, stylesOk := true,
    harvesterOk := true }

/-- Python exception kinds raised by `manager.py`. -/
inductive Err
  | validationError
  | policyViolation (msg : String)
  | doesNotExist
  | unboundLocal
  | multipleObjectsReturned
  | attributeError
  | backendFailure
  deriving DecidableEq, Repr

/-- `ResourceBase.objects.filter(uuid=u)`. -/
def dbFilter (db : List Resource) (u : String) : List Resource :=
  db.filter (fun r => decide (r.uuid = u))

/-- `ResourceManager._get_instance` (manager.py 225-231): resolve a uuid to
its unique row, `None` on zero or several matches. -/
def getInstance (db : List Resource) (u : String) : Option Resource :=
  if (dbFilter db u).length = 1 then (dbFilter db u).head? else none

/-- `resource.set_processing_state(s)`: persist the state for every row
with this uuid (the terminal state is persisted so observers polling the
resource see operation completion). -/
def setStateDb (db : List Resource) (u : String) (s : PState) : List Resource :=
  db.map (fun r => if r.uuid = u then { r with state := s } else r)

/-- `resource.set_dirty_state()`. -/
def setDirtyDb (db : List Resource) (u : String) : List Resource :=
  db.map (fun r => if r.uuid = u then { r with dirty := true } else r)

def markState (st : St) (u : String) (s : PState) : St :=
  ⟨setStateDb st.db u s, st.log ++ [.stateMark u s]⟩

def markDirty (st : St) (u : String) : St :=
  ⟨setDirtyDb st.db u, st.log ++ [.dirtyMark u]⟩

def emit (st : St) (e : Event) : St := ⟨st.db, st.log ++ [e]⟩

/-- `ResourceBase.objects.filter(uuid=u).delete()`. -/
def removeBaseRec (st : St) (u : String) : St :=
  ⟨st.db.filter (fun r => decide (r.uuid ≠ u)), st.log ++ [.removeBase u]⟩

/-- `instance or ResourceManager._get_instance(uuid)` (instance takes
precedence). -/
def resolve (db : List Resource) (uuid : String) (inst : Option Resource) :
    Option Resource :=
  match inst with
  | some r => some r
  | none => getInstance db uuid

/-- `resource_type.objects.filter(uuid=u)`: the class-specific table. -/
def classFilter (db : List Resource) (u : String) (c : RClass) : List Resource :=
  db.filter (fun r => decide (r.uuid = u ∧ r.rclass = c))

/-- The dataset cascade sub-steps of `delete` (manager.py 263-297): removal
of referencing map layers, rating aggregates, upload records and styles.
Each runs in its own try/except: a failing step leaves no trace, a
succeeding one is logged; the store is untouched either way (those rows
live in other tables). -/
def cascadeEmits (be : Backend) (s : St) : St :=
  let sA := if be.mapLayerOk then emit s (.cascade "maplayers") else s      -- 263-271
  let sB := if be.ratingOk then emit sA (.cascade "ratings") else sA        -- 273-280
  let sC := if be.uploadOk then emit sB (.cascade "uploads") else sB        -- 282-291
  if be.stylesOk then emit sC (.cascade "styles") else sC                   -- 293-297

/-! ### The lifecycle operations of `ResourceManager` -/

namespace ResourceManager

/-- manager.py 537-578, `remove_permissions`: mark RUNNING, delete the
guardian permission rows and delegate inside one atomic block, then mark
PROCESSED and return True; any exception rolls the block back and marks
INVALID + dirty, returning False. -/
def remove_permissions (be : Backend) (st : St) (uuid : String)
    (inst : Option Resource) : Bool × St :=
  match resolve st.db uuid inst with
  | none => (false, st)                            -- 543 guard fails, 578
  | some r =>
    let st1 := markState st r.uuid .running        -- 544
    let snap := st1.db                             -- 546 transaction.atomic
    let st2 := emit st1 (.permRowsDeleted r.uuid)  -- 548-569
    let st3 := emit st2 (.backendRemovePerms uuid) -- 570
    if be.removePermsOk then
      (true, markState st3 r.uuid .processed)      -- 572-573
    else
      -- 570-571 raises; the atomic block rolls back, then 574-577
      (false, markDirty (markState (⟨snap, st3.log⟩ : St) r.uuid .invalid) r.uuid)

/-- manager.py 247-319, `delete`: best-effort cascading removal.  Every
cascade sub-step failure is swallowed; the base record is removed in the
`finally` block on every path that entered the `try`. -/
def delete (be : Backend) (st : St) (uuid : String) (inst : Option Resource) :
    Except Err Nat × St :=
  match resolve st.db uuid inst with
  | none =>
    -- 250: `uuid = uuid or _resource.uuid` dereferences None when uuid is falsy
    if uuid = "" then (.error .attributeError, st)
    else (.ok 0, st)                               -- 251 guard fails, 319
  | some r =>
    let u := if uuid = "" then r.uuid else uuid    -- 250
    if (dbFilter st.db u).length ≠ 0 then          -- 251 `.exists()`
      let st1 := markState st r.uuid .running      -- 253
      let st2 := emit st1 (.backendDelete u)       -- 254
      if be.deleteOk then
        -- 255-300: dataset-specific cascade, each sub-step try/except'd
        let st3 :=
          if r.rclass = .dataset then
            (remove_permissions be (cascadeEmits be st2) r.uuid (some r)).2          -- 263-298
          else st2
        let st4 := if be.harvesterOk then emit st3 (.cascade "harvester") else st3   -- 302-309
        -- 310-313: real-instance delete; DoesNotExist swallowed, others escape
        if be.realDeleteOk then
          (.ok 1, removeBaseRec (⟨st4.db.filter (fun x => decide (x.uuid ≠ r.uuid)), st4.log⟩ : St) u)
          -- 314 via the finally at 317-318
        else
          (.ok 0, removeBaseRec st4 u)             -- except 315-316, finally 318, 319
      else
        (.ok 0, removeBaseRec st2 u)               -- except 315-316, finally 318, 319
    else (.ok 0, st)                               -- 319

/-- manager.py 321-340, `create`.  `template` carries the field values of
`defaults`; `gen` is the value `str(uuid1())` would produce (324).  If a
resource of this class and uuid already exists it is returned unchanged;
on a failure after the insert, `delete` compensates and the exception is
re-raised (no INVALID transition happens: the record is removed). -/
def create (be : Backend) (st : St) (uuid : String) (rclass : RClass)
    (template : Resource) (gen : String) : Except Err Resource × St :=
  match classFilter st.db uuid rclass with
  | [r] => (.ok r, st)                                      -- 322-323
  | _ :: _ :: _ => (.error .multipleObjectsReturned, st)    -- 323 `.get()`
  | [] =>
    let u := if uuid = "" then gen else uuid                -- 324
    match classFilter st.db u rclass with                   -- 325-327 get_or_create
    | [r] => (.ok r, st)                                    -- found: _created = False, 340
    | _ :: _ :: _ => (.error .multipleObjectsReturned, st)
    | [] =>
      let newR : Resource := { template with uuid := u, rclass := rclass }
      let st1 : St := ⟨st.db ++ [newR], st.log ++ [.insertRec u]⟩
      let st2 := markState st1 u .running                   -- 329
      let st3 := emit st2 (.backendCreate u)                -- 331-333 (atomic)
      if be.createOk then
        (.ok { newR with state := .processed }, markState st3 u .processed)  -- 334
      else
        -- 335-338: compensate with delete, then `raise e`
        (.error .backendFailure, (delete be st3 u (some { newR with state := .running })).2)

/-- manager.py 342-387, `update`.  `vals`, `regions`, `keywords`, `custom`
and `notify` act on record fields outside this model and are elided;
`parsedUuid` is the uuid component of `parse_metadata`'s result (362).
Every exception inside the transaction is caught at 382: the state is set
to INVALID + dirty and the resource is returned, nothing is re-raised
(hence the total return type). -/
def update (be : Backend) (st : St) (uuid : String) (inst : Option Resource)
    (xmlFile : Option String) (metadataUploaded : Bool) (parsedUuid : String) :
    Option Resource × St :=
  match resolve st.db uuid inst with
  | none => (none, st)                             -- 345 guard fails, 387
  | some r =>
    let st1 := markState st r.uuid .running        -- 346
    let snap := st1.db                             -- 351 transaction.atomic
    -- 382-385: exception → rollback, INVALID + dirty, no re-raise
    let fail : St → Option Resource × St := fun stC =>
      (some { r with state := .invalid, dirty := true },
       markDirty (markState (⟨snap, stC.log⟩ : St) r.uuid .invalid) r.uuid)
    -- 368-381: save, update_resource, concrete update, storers, workflow
    let rest : String → St → Option Resource × St := fun u2 stC =>
      let stA := emit stC (.backendUpdate u2)      -- 371
      if ¬ be.updateOk then fail stA               -- 371 raises
      else if ¬ be.storersOk then fail stA         -- 372 raises
      else if ¬ be.tasksOk then fail stA           -- 375-379 raises
      else (some { r with state := .processed }, markState stA r.uuid .processed)  -- 380-381
    if metadataUploaded ∧ xmlFile.isSome then      -- 352
      if ¬ be.xmlReadOk then fail st1              -- 353-360 raises
      else if uuid ≠ "" ∧ uuid ≠ parsedUuid then fail st1  -- 363-364 ValidationError
      else rest parsedUuid st1                     -- 366: uuid = _uuid
    else rest uuid st1

/-- manager.py 580-763, `set_permissions`.  Owner reassignment and the
per-principal grant loops write guardian tables outside this model; an
exception anywhere in them is `be.setPermsInternalOk = false`.  The
concrete manager returning False (753-756) is only logged, never fatal. -/
def set_permissions (be : Backend) (st : St) (uuid : String)
    (inst : Option Resource) (permissions : PermSpec) : Bool × St :=
  match resolve st.db uuid inst with
  | none => (false, st)                            -- 581 guard fails, 763
  | some r =>
    let st1 := markState st r.uuid .running        -- 584
    let snap := st1.db                             -- 587 transaction.atomic
    let st2 := emit st1 (.applyPerms r.uuid permissions)   -- 610-702 grant loops
    let st3 := (remove_permissions be st2 uuid (some r)).2 -- 608
    if be.setPermsInternalOk then
      let st4 := emit st3 (.backendSetPerms uuid)  -- 753
      (true, markState st4 r.uuid .processed)      -- 757-758
    else
      (false, markDirty (markState (⟨snap, st3.log⟩ : St) r.uuid .invalid) r.uuid)  -- 759-762

/-- manager.py 476-482: drop the anonymous-user and anonymous-group entries
(when present) from a captured perm spec before re-applying it to a clone. -/
def stripAnon (p : PermSpec) : PermSpec :=
  ⟨if (alookup p.users .anonymousUser).isSome then aerase p.users .anonymousUser
    else p.users,
   if (alookup p.groups .anonymousGroup).isSome then aerase p.groups .anonymousGroup
    else p.groups⟩

/-- manager.py 433-485, `copy`.  `srcPerms` models
`instance.get_real_instance().get_all_level_info()` (439, a collaborator
not under src/): the source's expanded perm spec; `gen` is `str(uuid1())`
(442); `defaults` and the `to_update` field dict are elided.  `copy` opens
no transaction, so nothing is rolled back on failure; the in-memory clone
saved at 443 carries the RUNNING state set on the source at 437. -/
def copy (be : Backend) (st : St) (inst : Option Resource) (uuidArg : String)
    (srcPerms : PermSpec) (gen : String) : Option Resource × St :=
  match inst with
  | none => (none, st)                              -- 434 guard, 485
  | some src =>
    let st1 := markState st src.uuid .running       -- 437
    let newUuid := if uuidArg = "" then gen else uuidArg   -- 442
    let clone : Resource := { src with uuid := newUuid, state := .running }
    let st2 : St := ⟨st1.db ++ [clone], st1.log ++ [.insertRec newUuid]⟩  -- 440-443
    let st3 := emit st2 (.cascade "subentities")    -- 444-461
    if ¬ be.storageCopyOk then
      -- 462 raises → except 464-466 (_resource = None) → finally 467-469 → 485
      (some { src with state := .processed }, markState st3 src.uuid .processed)
    else
      let st4 := emit st3 (.backendCopy newUuid)    -- 463
      if ¬ be.copyOk then
        (some { src with state := .processed }, markState st4 src.uuid .processed)  -- 485
      else
        let st5 := markState st4 src.uuid .processed     -- finally 467-469
        let st6 := markState st5 newUuid .processed      -- 471-472
        let st7 := (set_permissions be st6 newUuid
          (some { clone with state := .processed }) (stripAnon srcPerms)).2  -- 476-483
        update be st7 newUuid (some { clone with state := .processed }) none false ""  -- 484

/-- manager.py 509-526, `_validate_resource` (leading underscore dropped).
The Python local `is_valid` is an `Option Bool`: `none` at the final
`return is_valid` (526) is CPython's UnboundLocalError. -/
def validate_resource (be : Backend) (inst : Resource) (actionType : String) :
    Except Err Bool :=
  if inst.rclass ≠ .dataset ∧ actionType = "append" then
    .error (.policyViolation "Append data is available only for Layers")  -- 510-511
  else if inst.rclass = .document ∧ actionType = "replace" then
    .ok true                                                              -- 513-514
  else if be.existsRes ∧ actionType = "append" then                       -- 516, 518
    let isValid : Option Bool :=
      if inst.rclass = .dataset ∧ inst.isVector then some true else none  -- 519-521
    match isValid with
    | some b => .ok b
    | none => .error .unboundLocal                                        -- 526
  else if be.existsRes ∧ actionType = "replace" then
    .ok true                                                              -- 522-523
  else
    .error .doesNotExist                                                  -- 524-525

/-- manager.py 487-495, `append`: validate (exceptions propagate), delegate
the data mutation to the concrete manager, then run a trailing `update`. -/
def append (be : Backend) (st : St) (inst : Resource) :
    Except Err (Option Resource) × St :=
  match validate_resource be inst "append" with
  | .error e => (.error e, st)                     -- 488: exception propagates
  | .ok true =>
    let st1 := emit st (.backendAppend inst.uuid)  -- 489
    if be.appendOk then
      let res := update be st1 inst.uuid (some inst) none false ""  -- 494
      (.ok res.1, res.2)
    else (.error .backendFailure, st1)
  | .ok false => (.ok (some inst), st)         -- 495

/-- manager.py 919-934, `set_thumbnail`.  The except branch at 932-933 only
logs: there is no PROCESSED/INVALID fix-up after a failure, the RUNNING
mark set at 922 survives. -/
def set_thumbnail (be : Backend) (st : St) (uuid : String)
    (inst : Option Resource) (overwrite : Bool) : Bool × St :=
  match resolve st.db uuid inst with
  | none => (false, st)                            -- 921 guard fails, 934
  | some r =>
    let st1 := markState st r.uuid .running        -- 922
    let snap := st1.db                             -- 924 transaction.atomic
    let st2 :=
      if inst.isSome ∧ r.hasFiles ∧ r.rclass = .document ∧ (overwrite ∨ r.thumbMissing)
      then emit st1 (.thumbTask r.uuid) else st1   -- 925-928
    let st3 := emit st2 (.backendSetThumb uuid)    -- 929
    if be.setThumbOk then
      (true, markState st3 r.uuid .processed)      -- 930-931
    else
      (false, (⟨snap, st3.log⟩ : St))              -- 932-933: log only

end ResourceManager

/-! ### The workflow permission computation -/

/-- The advanced-workflow settings pair plus
`AUTO_ASSIGN_REGISTERED_MEMBERS_TO_REGISTERED_MEMBERS_GROUP_NAME`
(process-wide configuration, read-only during a request). -/
structure WorkflowCfg where
  resourcePublishing : Bool
  adminModerateUploads : Bool
  autoAssignRegistered : Bool
  deriving DecidableEq, Repr

/-- Modelled from the spec: `VIEW_PERMISSIONS` of
`geonode.security.permissions` (that module is not under src/). -/
def VIEW_PERMISSIONS : List String := ["view_resourcebase"]

/-- Modelled from the spec: `DOWNLOAD_PERMISSIONS` (not under src/). -/
def DOWNLOAD_PERMISSIONS : List String := ["download_resourcebase"]

/-- Modelled from the spec: `ADMIN_PERMISSIONS` (not under src/), the
owner's baseline management grant set. -/
def ADMIN_PERMISSIONS : List String :=
  ["change_resourcebase", "delete_resourcebase", "change_resourcebase_metadata",
   "change_resourcebase_permissions", "publish_resourcebase"]

/-- Modelled from the spec: `DOWNLOADABLE_RESOURCES` (not under src/), the
resource types carrying download permission tokens. -/
def DOWNLOADABLE_RESOURCES : List RClass := [.dataset, .document]

/-- manager.py 874-877: the view(+download) token set for a resource type. -/
def viewPermsFor (rc : RClass) : List String :=
  if rc ∉ DOWNLOADABLE_RESOURCES then VIEW_PERMISSIONS
  else VIEW_PERMISSIONS ++ DOWNLOAD_PERMISSIONS

namespace ResourceManager

/-- manager.py 765-917, `get_workflow_permissions`.
`groupManagers`/`memberGroupPerm` are the two components of
`_resource.get_group_managers(user_groups)` (882), an external
group-membership lookup; `_resource.fixup_perms` (870) and the trailing
concrete-manager delegation (915) are representation fix-ups modelled as
the identity; the sanity normalization at 849-867 is the identity on the
canonical dictionary form `PermSpec`. -/
def get_workflow_permissions (cfg : WorkflowCfg) (groupManagers : List UserP)
    (memberGroupPerm : List (GroupP × List String)) (r : Resource)
    (permSpec : PermSpec) : PermSpec :=
  if cfg.adminModerateUploads ∨ cfg.resourcePublishing then      -- 873
    let vp := viewPermsFor r.rclass                              -- 874-877
    -- 884-894: group managers receive prev + view + ADMIN perms (set union)
    let s1 := groupManagers.foldl (fun acc gm =>
      { acc with users := (ainsert acc.users gm
          (pyUnion ((alookup acc.users gm).getD []) (vp ++ ADMIN_PERMISSIONS))) })
      permSpec
    -- 896-900: member groups except the anonymous and registered-members
    -- groups receive prev + their member perms (set union)
    let s2 := memberGroupPerm.foldl (fun acc q =>
      if q.1 ≠ GroupP.anonymousGroup ∧ q.1 ≠ GroupP.registeredMembers then
        { acc with groups := (ainsert acc.groups q.1
            (pyUnion ((alookup acc.groups q.1).getD []) q.2)) }
      else acc) s1
    -- 902-909: approved branch
    let s3 :=
      if r.isApproved then
        if cfg.autoAssignRegistered then
          { s2 with groups := (ainsert s2.groups .registeredMembers
              (pyUnion ((alookup s2.groups .registeredMembers).getD []) vp)) }
        else
          { s2 with groups := (ainsert s2.groups .anonymousGroup
              (pyUnion ((alookup s2.groups .anonymousGroup).getD []) vp)) }
      else s2
    -- 911-913: published branch
    if r.isPublished then
      { s3 with groups := (ainsert s3.groups .anonymousGroup
          (pyUnion ((alookup s3.groups .anonymousGroup).getD []) vp)) }
    else s3
  else permSpec                                                  -- 873 skipped

end ResourceManager

/-! ### Store-level lemmas -/

/-- The observable-state invariant of §4.1/§3: no resource of the store is
in the transient RUNNING state. -/
def noRunning (db : List Resource) : Prop := ∀ r ∈ db, r.state ≠ .running

instance (db : List Resource) : Decidable (noRunning db) := by
  unfold noRunning
  infer_instance

/-- The condition under which some step inside `update`'s transaction
raises: a failing metadata-file read, a uuid mismatch against the parsed
metadata, or a failing concrete update, metadata storer or workflow
task. -/
def updFails (be : Backend) (uuid : String) (xmlFile : Option String)
    (metadataUploaded : Bool) (parsedUuid : String) : Prop :=
  (metadataUploaded ∧ xmlFile.isSome ∧ ¬ be.xmlReadOk) ∨
  (metadataUploaded ∧ xmlFile.isSome ∧ be.xmlReadOk ∧ uuid ≠ "" ∧ uuid ≠ parsedUuid) ∨
  ¬ be.updateOk ∨ ¬ be.storersOk ∨ ¬ be.tasksOk

instance (be : Backend) (uuid : String) (xmlFile : Option String)
    (metadataUploaded : Bool) (parsedUuid : String) :
    Decidable (updFails be uuid xmlFile metadataUploaded parsedUuid) := by
  unfold updFails
  infer_instance

/-! ### Concrete fixtures -/

/-- A processed document resource. -/
def rDoc : Resource :=
  { uuid := "u1", rclass := .document, isVector := false, state := .processed,
    dirty := false, isApproved := false, isPublished := false, hasFiles := false,
    thumbMissing := false }

/-- A processed vector dataset. -/
def rVec : Resource := { rDoc with uuid := "u2", rclass := .dataset, isVector := true }

/-- A processed raster (non-vector) dataset. -/
def rRaster : Resource := { rDoc with uuid := "u3", rclass := .dataset, isVector := false }

/-- A published resource. -/
def rPub : Resource := { rDoc with uuid := "u9", isPublished := true }

/-- A perm spec granting view to the anonymous user, a named user and the
anonymous group. -/
def pSpec1 : PermSpec :=
  ⟨[(UserP.anonymousUser, ["view_resourcebase"]),
    (UserP.named "alice", ["view_resourcebase", "change_resourcebase"])],
   [(GroupP.anonymousGroup, ["view_resourcebase"])]⟩

def beThumbFail : Backend := { allOk with setThumbOk := false }

def beCreateFail : Backend := { allOk with createOk := false }

def beDeleteFail : Backend := { allOk with deleteOk := false }

def beCopyFail : Backend := { allOk with copyOk := false }

def beUpdateFail : Backend := { allOk with updateOk := false }

/-- The auto-publish configuration: both workflow settings off. -/
def cfgOff : WorkflowCfg := ⟨false, false, false⟩

/-! ### Lemmas -/

theorem alookup_cons {κ α : Type} [DecidableEq κ] (p : κ × α) (t : List (κ × α)) (k : κ) :
    alookup (p :: t) k = if p.1 = k then some p.2 else alookup t k := by
  by_cases hp : p.1 = k
  · rw [if_pos hp]
    unfold alookup
    rw [List.find?_cons_of_pos _ (by simp [hp])]
    rfl
  · rw [if_neg hp]
    unfold alookup
    rw [List.find?_cons_of_neg _ (by simp [hp])]

theorem alookup_aerase {κ α : Type} [DecidableEq κ]
    (l : List (κ × α)) (k : κ) : alookup (aerase l k) k = none := by
  induction l with
  | nil => rfl
  | cons p t ih =>
      by_cases h : p.1 = k
      · simpa [aerase, h] using ih
      · have h1 : aerase (p :: t) k = p :: aerase t k := by
          simp [aerase, h]
        rw [h1, alookup_cons, if_neg h]
        exact ih

theorem alookup_map_replace {κ α : Type} [DecidableEq κ]
    (l : List (κ × α)) (k : κ) (v : α) (h : (alookup l k).isSome = true) :
    alookup (l.map (fun p => if p.1 = k then (k, v) else p)) k = some v := by
  induction l with
  | nil => simp [alookup] at h
  | cons p t ih =>
      rw [alookup_cons] at h
      by_cases hp : p.1 = k
      · simp [List.map_cons, if_pos hp, alookup_cons]
      · rw [if_neg hp] at h
        rw [List.map_cons, if_neg hp, alookup_cons, if_neg hp]
        exact ih h

theorem alookup_map_replace_ne {κ α : Type} [DecidableEq κ]
    (l : List (κ × α)) (k k' : κ) (v : α) (h : k' ≠ k) :
    alookup (l.map (fun p => if p.1 = k then (k, v) else p)) k' = alookup l k' := by
  induction l with
  | nil => rfl
  | cons p t ih =>
      have hk : ¬ (k = k') := fun hh => h hh.symm
      by_cases hp : p.1 = k
      · have hp' : ¬ (p.1 = k') := by rw [hp]; exact hk
        rw [List.map_cons, if_pos hp, alookup_cons, alookup_cons, if_neg hp']
        simp only [if_neg hk]
        exact ih
      · rw [List.map_cons, if_neg hp, alookup_cons, alookup_cons]
        by_cases hq : p.1 = k'
        · rw [if_pos hq, if_pos hq]
        · rw [if_neg hq, if_neg hq]
          exact ih

theorem alookup_append_single {κ α : Type} [DecidableEq κ]
    (l : List (κ × α)) (k : κ) (v : α) (h : (alookup l k).isSome = false) :
    alookup (l ++ [(k, v)]) k = some v := by
  induction l with
  | nil => simp [alookup_cons]
  | cons p t ih =>
      rw [alookup_cons] at h
      by_cases hp : p.1 = k
      · rw [if_pos hp] at h
        simp at h
      · rw [if_neg hp] at h
        rw [List.cons_append, alookup_cons, if_neg hp]
        exact ih h

theorem alookup_append_single_ne {κ α : Type} [DecidableEq κ]
    (l : List (κ × α)) (k k' : κ) (v : α) (h : k' ≠ k) :
    alookup (l ++ [(k, v)]) k' = alookup l k' := by
  have hk : ¬ (k = k') := fun hh => h hh.symm
  induction l with
  | nil => simp [alookup_cons, if_neg hk, alookup]
  | cons p t ih =>
      rw [List.cons_append, alookup_cons, alookup_cons]
      by_cases hq : p.1 = k'
      · rw [if_pos hq, if_pos hq]
      · rw [if_neg hq, if_neg hq]
        exact ih

theorem alookup_ainsert_self {κ α : Type} [DecidableEq κ]
    (l : List (κ × α)) (k : κ) (v : α) : alookup (ainsert l k v) k = some v := by
  unfold ainsert
  split
  · exact alookup_map_replace l k v (by assumption)
  · exact alookup_append_single l k v (by simp_all)

theorem alookup_ainsert_ne {κ α : Type} [DecidableEq κ]
    (l : List (κ × α)) (k k' : κ) (v : α) (h : k' ≠ k) :
    alookup (ainsert l k v) k' = alookup l k' := by
  unfold ainsert
  split
  · exact alookup_map_replace_ne l k k' v h
  · exact alookup_append_single_ne l k k' v h

theorem mem_pyUnion (t : String) (a b : List String) :
    t ∈ pyUnion a b ↔ t ∈ a ∨ t ∈ b := by
  simp [pyUnion, List.mem_dedup]

theorem setStateDb_setStateDb (db : List Resource) (u : String) (s1 s2 : PState) :
    setStateDb (setStateDb db u s1) u s2 = setStateDb db u s2 := by
  induction db with
  | nil => rfl
  | cons r t ih =>
      simp only [setStateDb, List.map_cons] at *
      by_cases h : r.uuid = u
      · simp [h, ih]
      · simp [h, ih]

theorem db_if_emit (c : Prop) [Decidable c] (s : St) (e : Event) :
    (if c then emit s e else s).db = s.db := by
  split <;> rfl

theorem emit_db (s : St) (e : Event) : (emit s e).db = s.db := rfl

theorem emit_log (s : St) (e : Event) : (emit s e).log = s.log ++ [e] := rfl

theorem markState_db (s : St) (u : String) (ps : PState) :
    (markState s u ps).db = setStateDb s.db u ps := rfl

theorem markState_log (s : St) (u : String) (ps : PState) :
    (markState s u ps).log = s.log ++ [.stateMark u ps] := rfl

theorem markDirty_db (s : St) (u : String) :
    (markDirty s u).db = setDirtyDb s.db u := rfl

theorem markDirty_log (s : St) (u : String) :
    (markDirty s u).log = s.log ++ [.dirtyMark u] := rfl

theorem removeBaseRec_db (s : St) (u : String) :
    (removeBaseRec s u).db = s.db.filter (fun x => decide (x.uuid ≠ u)) := rfl

theorem removeBaseRec_log (s : St) (u : String) :
    (removeBaseRec s u).log = s.log ++ [.removeBase u] := rfl

theorem db_ite (c : Prop) [Decidable c] (a b : St) :
    (if c then a else b).db = if c then a.db else b.db := by
  split <;> rfl

theorem filter_ite (c : Prop) [Decidable c] (p : Resource → Bool)
    (a b : List Resource) :
    (if c then a else b).filter p = if c then a.filter p else b.filter p := by
  split <;> rfl

theorem cascadeEmits_db (be : Backend) (s : St) : (cascadeEmits be s).db = s.db := by
  simp only [cascadeEmits, db_if_emit]

theorem noRunning_setStateDb {db : List Resource} {u : String} {s : PState}
    (h : ∀ r ∈ db, r.uuid ≠ u → r.state ≠ .running) (hs : s ≠ .running) :
    noRunning (setStateDb db u s) := by
  intro x hx
  rcases List.mem_map.mp hx with ⟨r, hr, rfl⟩
  by_cases hu : r.uuid = u
  · rw [if_pos hu]
    exact hs
  · rw [if_neg hu]
    exact h r hr hu

theorem noRunning_setStateDb_of {db : List Resource} {u : String} {s : PState}
    (h : noRunning db) (hs : s ≠ .running) : noRunning (setStateDb db u s) :=
  noRunning_setStateDb (fun r hr _ => h r hr) hs

theorem noRunning_setDirtyDb {db : List Resource} {u : String}
    (h : noRunning db) : noRunning (setDirtyDb db u) := by
  intro x hx
  rcases List.mem_map.mp hx with ⟨r, hr, rfl⟩
  by_cases hu : r.uuid = u
  · rw [if_pos hu]
    exact h r hr
  · rw [if_neg hu]
    exact h r hr

theorem noRunning_filter {db : List Resource} {p : Resource → Bool}
    (h : noRunning db) : noRunning (db.filter p) :=
  fun r hr => h r (List.mem_filter.mp hr).1

theorem mem_setStateDb {db : List Resource} {u : String} {s : PState} {x : Resource}
    (hx : x ∈ setStateDb db u s) :
    (x.uuid = u ∧ x.state = s) ∨ (x ∈ db ∧ x.uuid ≠ u) := by
  rcases List.mem_map.mp hx with ⟨r, hr, rfl⟩
  by_cases hu : r.uuid = u
  · rw [if_pos hu]
    left
    exact ⟨hu, rfl⟩
  · rw [if_neg hu]
    right
    exact ⟨hr, hu⟩

theorem filter_ne_mapOn (db : List Resource) (u : String) (f : Resource → Resource)
    (hf : ∀ r, (f r).uuid = r.uuid) :
    (db.map (fun r => if r.uuid = u then f r else r)).filter
        (fun x => decide (x.uuid ≠ u))
      = db.filter (fun x => decide (x.uuid ≠ u)) := by
  induction db with
  | nil => rfl
  | cons r t ih =>
      rw [List.map_cons, List.filter_cons, List.filter_cons]
      by_cases h : r.uuid = u
      · rw [if_pos h]
        have h1 : decide ((f r).uuid ≠ u) = false := by simp [hf, h]
        have h2 : decide (r.uuid ≠ u) = false := by simp [h]
        rw [h1, h2]
        simpa using ih
      · rw [if_neg h]
        have h2 : decide (r.uuid ≠ u) = true := by simp [h]
        rw [h2]
        simpa using ih

theorem filter_ne_setStateDb (db : List Resource) (u : String) (s : PState) :
    (setStateDb db u s).filter (fun x => decide (x.uuid ≠ u))
      = db.filter (fun x => decide (x.uuid ≠ u)) :=
  filter_ne_mapOn db u (fun r => { r with state := s }) (fun _ => rfl)

theorem filter_ne_setDirtyDb (db : List Resource) (u : String) :
    (setDirtyDb db u).filter (fun x => decide (x.uuid ≠ u))
      = db.filter (fun x => decide (x.uuid ≠ u)) :=
  filter_ne_mapOn db u (fun r => { r with dirty := true }) (fun _ => rfl)

theorem filter_ne_idem (db : List Resource) (u : String) :
    ((db.filter (fun x => decide (x.uuid ≠ u))).filter (fun x => decide (x.uuid ≠ u)))
      = db.filter (fun x => decide (x.uuid ≠ u)) := by
  induction db with
  | nil => rfl
  | cons r t ih =>
      simp only [List.filter_cons] at *
      by_cases h : r.uuid = u
      · simp [h, ih]
      · simp [h, ih]

theorem dbFilter_filter_ne (db : List Resource) (u : String) :
    dbFilter (db.filter (fun x => decide (x.uuid ≠ u))) u = [] := by
  induction db with
  | nil => rfl
  | cons r t ih =>
      simp only [dbFilter, List.filter_cons] at *
      by_cases h : r.uuid = u
      · simp [h, ih]
      · simp [h, ih]

theorem getInstance_eq_some {db : List Resource} {u : String} {r : Resource}
    (h : getInstance db u = some r) : r.uuid = u ∧ dbFilter db u = [r] := by
  unfold getInstance at h
  split at h
  · next hl =>
      rcases List.length_eq_one.mp hl with ⟨a, ha⟩
      rw [ha] at h
      simp only [List.head?_cons, Option.some.injEq] at h
      constructor
      · have hm : a ∈ dbFilter db u := by rw [ha]; exact List.mem_singleton_self a
        have h2 := (List.mem_filter.mp hm).2
        rw [← h]
        simpa using h2
      · rw [ha, h]
  · exact Option.noConfusion h

/-! ### Operation-level lemmas -/

theorem noRunning_append_one {db : List Resource} {r : Resource}
    (h : noRunning db) (h2 : r.state ≠ .running) : noRunning (db ++ [r]) := by
  intro x hx
  rcases List.mem_append.mp hx with hx | hx
  · exact h x hx
  · rw [List.mem_singleton] at hx
    subst hx
    exact h2

/-- `remove_permissions` called on an explicit instance: the resulting
store, for every oracle. -/
theorem remove_permissions_some_db (be : Backend) (st : St) (u' : String) (r : Resource) :
    ((ResourceManager.remove_permissions be st u' (some r)).2).db
      = if be.removePermsOk then setStateDb st.db r.uuid .processed
        else setDirtyDb (setStateDb st.db r.uuid .invalid) r.uuid := by
  unfold ResourceManager.remove_permissions
  by_cases h : be.removePermsOk <;>
    simp [resolve, h, markState, markDirty, emit, setStateDb_setStateDb]

theorem noRunning_remove_permissions (be : Backend) (st : St) (u : String)
    (inst : Option Resource) (h : noRunning st.db) :
    noRunning ((ResourceManager.remove_permissions be st u inst).2).db := by
  have hsome : ∀ r : Resource,
      noRunning ((ResourceManager.remove_permissions be st u (some r)).2).db := by
    intro r
    rw [remove_permissions_some_db]
    by_cases hrp : be.removePermsOk
    · rw [if_pos hrp]
      exact noRunning_setStateDb_of h (by simp)
    · rw [if_neg hrp]
      exact noRunning_setDirtyDb (noRunning_setStateDb_of h (by simp))
  cases inst with
  | some r => exact hsome r
  | none =>
      cases hg : getInstance st.db u with
      | none =>
          unfold ResourceManager.remove_permissions
          simp only [resolve, hg]
          exact h
      | some r =>
          have : ResourceManager.remove_permissions be st u none
              = ResourceManager.remove_permissions be st u (some r) := by
            unfold ResourceManager.remove_permissions
            simp only [resolve, hg]
          rw [this]
          exact hsome r

theorem set_permissions_some_db (be : Backend) (st : St) (u' : String) (r : Resource)
    (p : PermSpec) :
    ((ResourceManager.set_permissions be st u' (some r) p).2).db
      = if be.setPermsInternalOk then
          (if be.removePermsOk then setStateDb st.db r.uuid .processed
           else setStateDb (setDirtyDb (setStateDb st.db r.uuid .invalid) r.uuid) r.uuid .processed)
        else setDirtyDb (setStateDb st.db r.uuid .invalid) r.uuid := by
  unfold ResourceManager.set_permissions
  by_cases hi : be.setPermsInternalOk <;> by_cases hrp : be.removePermsOk <;>
    simp [resolve, hi, hrp, remove_permissions_some_db, markState, markDirty, emit,
      setStateDb_setStateDb]

theorem noRunning_set_permissions (be : Backend) (st : St) (u : String)
    (inst : Option Resource) (p : PermSpec) (h : noRunning st.db) :
    noRunning ((ResourceManager.set_permissions be st u inst p).2).db := by
  have hsome : ∀ r : Resource,
      noRunning ((ResourceManager.set_permissions be st u (some r) p).2).db := by
    intro r
    rw [set_permissions_some_db]
    by_cases hi : be.setPermsInternalOk
    · rw [if_pos hi]
      by_cases hrp : be.removePermsOk
      · rw [if_pos hrp]
        exact noRunning_setStateDb_of h (by simp)
      · rw [if_neg hrp]
        exact noRunning_setStateDb_of
          (noRunning_setDirtyDb (noRunning_setStateDb_of h (by simp))) (by simp)
    · rw [if_neg hi]
      exact noRunning_setDirtyDb (noRunning_setStateDb_of h (by simp))
  cases inst with
  | some r => exact hsome r
  | none =>
      cases hg : getInstance st.db u with
      | none =>
          unfold ResourceManager.set_permissions
          simp only [resolve, hg]
          exact h
      | some r =>
          have : ResourceManager.set_permissions be st u none p
              = ResourceManager.set_permissions be st u (some r) p := by
            unfold ResourceManager.set_permissions
            simp only [resolve, hg]
          rw [this]
          exact hsome r

theorem update_some_shape (be : Backend) (st : St) (u : String) (r : Resource)
    (xf : Option String) (md : Bool) (pu : String) :
    (ResourceManager.update be st u (some r) xf md pu).1
        = some (if updFails be u xf md pu then { r with state := .invalid, dirty := true }
                else { r with state := .processed }) ∧
    (ResourceManager.update be st u (some r) xf md pu).2.db
        = (if updFails be u xf md pu then setDirtyDb (setStateDb st.db r.uuid .invalid) r.uuid
           else setStateDb st.db r.uuid .processed) := by
  unfold ResourceManager.update updFails
  by_cases h1 : md ∧ xf.isSome
  · by_cases h2 : be.xmlReadOk
    · by_cases h3 : u ≠ "" ∧ u ≠ pu
      · simp [resolve, h1, h2, h3, markState, markDirty, emit, setStateDb_setStateDb]
      · by_cases h4 : be.updateOk
        · by_cases h5 : be.storersOk
          · by_cases h6 : be.tasksOk
            · simp [resolve, h1, h2, h3, h4, h5, h6, markState, markDirty, emit,
                setStateDb_setStateDb]
            · simp [resolve, h1, h2, h3, h4, h5, h6, markState, markDirty, emit,
                setStateDb_setStateDb]
          · simp [resolve, h1, h2, h3, h4, h5, markState, markDirty, emit,
              setStateDb_setStateDb]
        · simp [resolve, h1, h2, h3, h4, markState, markDirty, emit, setStateDb_setStateDb]
    · simp [resolve, h1, h2, markState, markDirty, emit, setStateDb_setStateDb]
  · by_cases h4 : be.updateOk
    · by_cases h5 : be.storersOk
      · by_cases h6 : be.tasksOk
        · have hz : ¬ ((md = true ∧ xf.isSome = true ∧ be.xmlReadOk = false) ∨
              (md = true ∧ xf.isSome = true ∧ be.xmlReadOk = true ∧ ¬ u = "" ∧ ¬ u = pu)) := by
            tauto
          simp [resolve, h1, h4, h5, h6, markState, markDirty, emit, setStateDb_setStateDb, hz]
        · simp [resolve, h1, h4, h5, h6, markState, markDirty, emit, setStateDb_setStateDb]
      · simp [resolve, h1, h4, h5, markState, markDirty, emit, setStateDb_setStateDb]
    · simp [resolve, h1, h4, markState, markDirty, emit, setStateDb_setStateDb]

theorem noRunning_update (be : Backend) (st : St) (u : String)
    (inst : Option Resource) (xf : Option String) (md : Bool) (pu : String)
    (h : noRunning st.db) :
    noRunning ((ResourceManager.update be st u inst xf md pu).2).db := by
  have hsome : ∀ r : Resource,
      noRunning ((ResourceManager.update be st u (some r) xf md pu).2).db := by
    intro r
    rw [(update_some_shape be st u r xf md pu).2]
    by_cases hf : updFails be u xf md pu
    · rw [if_pos hf]
      exact noRunning_setDirtyDb (noRunning_setStateDb_of h (by simp))
    · rw [if_neg hf]
      exact noRunning_setStateDb_of h (by simp)
  cases inst with
  | some r => exact hsome r
  | none =>
      cases hg : getInstance st.db u with
      | none =>
          unfold ResourceManager.update
          simp only [resolve, hg]
          exact h
      | some r =>
          have : ResourceManager.update be st u none xf md pu
              = ResourceManager.update be st u (some r) xf md pu := by
            unfold ResourceManager.update
            simp only [resolve, hg]
          rw [this]
          exact hsome r

theorem filter_ne_setStateDb' (db : List Resource) (u : String) (s : PState) :
    (setStateDb db u s).filter (fun x => !decide (x.uuid = u))
      = db.filter (fun x => !decide (x.uuid = u)) := by
  simpa using filter_ne_setStateDb db u s

theorem filter_ne_setDirtyDb' (db : List Resource) (u : String) :
    (setDirtyDb db u).filter (fun x => !decide (x.uuid = u))
      = db.filter (fun x => !decide (x.uuid = u)) := by
  simpa using filter_ne_setDirtyDb db u

theorem filter_ne_idem' (db : List Resource) (u : String) :
    ((db.filter (fun x => !decide (x.uuid = u))).filter (fun x => !decide (x.uuid = u)))
      = db.filter (fun x => !decide (x.uuid = u)) := by
  simp

/-- `delete` on a resolvable, existing target: the base record is gone on
every oracle outcome; the return value is 1 exactly when both the concrete
delete and the real-instance delete went through. -/
theorem delete_some_shape (be : Backend) (st : St) (u : String) (r : Resource)
    (hru : r.uuid = u) (hex : (dbFilter st.db u).length ≠ 0) :
    (ResourceManager.delete be st u (some r)).2.db
        = st.db.filter (fun x => decide (x.uuid ≠ u)) ∧
    Event.removeBase u ∈ (ResourceManager.delete be st u (some r)).2.log ∧
    (ResourceManager.delete be st u (some r)).1
        = .ok (if be.deleteOk ∧ be.realDeleteOk then 1 else 0) := by
  have hu2 : (if u = "" then r.uuid else u) = u := by split <;> simp [hru]
  have hex' : ((dbFilter st.db u).length ≠ 0) = True := eq_true hex
  refine ⟨?_, ?_, ?_⟩ <;>
    (unfold ResourceManager.delete
     simp only [resolve, hu2, hru, hex', if_true]
     by_cases hd : be.deleteOk <;> by_cases hrd : be.realDeleteOk <;>
       simp only [hd, hrd, eq_self_iff_true, Bool.false_eq_true, if_true, if_false,
         removeBaseRec_db, removeBaseRec_log, emit_db, emit_log, markState_db,
         markState_log, markDirty_db, db_if_emit, db_ite, filter_ite, cascadeEmits_db,
         remove_permissions_some_db, hru, setStateDb_setStateDb,
         ite_self, and_self, true_and, and_true, false_and, and_false] <;>
       simp [hex, hru, filter_ne_setStateDb', filter_ne_setDirtyDb', filter_ne_idem',
         setStateDb_setStateDb, removeBaseRec_db, removeBaseRec_log, emit_db, emit_log,
         markState_db, markState_log, markDirty_db, db_if_emit, db_ite, filter_ite,
         cascadeEmits_db, remove_permissions_some_db, ite_self])

theorem noRunning_delete_some (be : Backend) (st : St) (u : String) (r : Resource)
    (hru : r.uuid = u) (h : noRunning st.db) :
    noRunning (ResourceManager.delete be st u (some r)).2.db := by
  by_cases hex : (dbFilter st.db u).length ≠ 0
  · rw [(delete_some_shape be st u r hru hex).1]
    exact noRunning_filter h
  · have hu2 : (if u = "" then r.uuid else u) = u := by
      split <;> simp [hru]
    unfold ResourceManager.delete
    simp only [resolve, hu2]
    simp [hex]
    exact h

theorem noRunning_delete_none (be : Backend) (st : St) (u : String)
    (h : noRunning st.db) :
    noRunning (ResourceManager.delete be st u none).2.db := by
  cases hg : getInstance st.db u with
  | none =>
      unfold ResourceManager.delete
      simp only [resolve, hg]
      by_cases hu : u = "" <;> simp [hu] <;> exact h
  | some r =>
      have heq : ResourceManager.delete be st u none
          = ResourceManager.delete be st u (some r) := by
        unfold ResourceManager.delete
        simp only [resolve, hg]
      rw [heq]
      exact noRunning_delete_some be st u r (getInstance_eq_some hg).1 h

theorem dbFilter_setStateDb_ne_nil (db0 : List Resource) (u : String) (s : PState)
    (y : Resource) (hy : y ∈ db0) (hyu : y.uuid = u) :
    (dbFilter (setStateDb db0 u s) u).length ≠ 0 := by
  have hmem : ({ y with state := s } : Resource) ∈ setStateDb db0 u s := by
    unfold setStateDb
    refine List.mem_map.mpr ⟨y, hy, ?_⟩
    rw [if_pos hyu]
  have hm : ({ y with state := s } : Resource) ∈ dbFilter (setStateDb db0 u s) u :=
    List.mem_filter.mpr ⟨hmem, by simp [hyu]⟩
  intro hlen
  rw [List.length_eq_zero] at hlen
  rw [hlen] at hm
  exact List.not_mem_nil _ hm

theorem dbFilter_exceptStateDb_mem (db0 : List Resource) (u : String) (y : Resource)
    (hy : y ∈ db0) : ∀ s, ∃ x ∈ setStateDb db0 u s, x.uuid = y.uuid := by
  intro s
  by_cases h : y.uuid = u
  · refine ⟨{ y with state := s }, ?_, rfl⟩
    unfold setStateDb
    refine List.mem_map.mpr ⟨y, hy, ?_⟩
    rw [if_pos h]
  · refine ⟨y, ?_, rfl⟩
    unfold setStateDb
    refine List.mem_map.mpr ⟨y, hy, ?_⟩
    rw [if_neg h]

/-- `create` when a resource of the requested class and uuid already
exists: it is returned unchanged and the state is untouched (no insert, no
backend call, no processing-state transition). -/
theorem create_of_found (be : Backend) (st : St) (u : String) (c : RClass)
    (tpl : Resource) (g : String) (r : Resource) (h : classFilter st.db u c = [r]) :
    ResourceManager.create be st u c tpl g = (.ok r, st) := by
  simp only [ResourceManager.create, h]

/-- `create` on a fresh uuid with a failing backend create: the failure is
re-raised and the just-inserted record is compensated away by `delete`
(whose `finally` removed the base record). -/
theorem create_fail_shape (be : Backend) (st : St) (u : String) (c : RClass)
    (tpl : Resource) (g : String)
    (hu : u ≠ "") (habs : classFilter st.db u c = []) (hbe : be.createOk = false) :
    (ResourceManager.create be st u c tpl g).1 = .error .backendFailure ∧
    dbFilter (ResourceManager.create be st u c tpl g).2.db u = [] ∧
    Event.removeBase u ∈ (ResourceManager.create be st u c tpl g).2.log := by
  have hgen : (if u = "" then g else u) = u := if_neg hu
  have hshape := delete_some_shape be
    (emit (markState ⟨st.db ++ [{ tpl with uuid := u, rclass := c }],
        st.log ++ [.insertRec u]⟩ u .running) (.backendCreate u))
    u ({ tpl with uuid := u, rclass := c, state := .running }) rfl
    (by
      simp only [emit_db, markState_db]
      exact dbFilter_setStateDb_ne_nil
        (st.db ++ [{ tpl with uuid := u, rclass := c }]) _ _ _
        (List.mem_append_right _ (List.mem_singleton_self _)) rfl)
  have hkey : ResourceManager.create be st u c tpl g
      = (.error .backendFailure,
         (ResourceManager.delete be
            (emit (markState ⟨st.db ++ [{ tpl with uuid := u, rclass := c }],
                st.log ++ [.insertRec u]⟩ u .running) (.backendCreate u))
            u (some { tpl with uuid := u, rclass := c, state := .running })).2) := by
    simp only [ResourceManager.create, habs, hgen, hbe, Bool.false_eq_true, if_false]
  rw [hkey]
  refine ⟨rfl, ?_, ?_⟩
  · rw [hshape.1]
    exact dbFilter_filter_ne _ u
  · exact hshape.2.1

theorem noRunning_create (be : Backend) (st : St) (u : String) (c : RClass)
    (tpl : Resource) (g : String) (h : noRunning st.db) :
    noRunning (ResourceManager.create be st u c tpl g).2.db := by
  simp only [ResourceManager.create]
  rcases h1 : classFilter st.db u c with _ | ⟨a, _ | ⟨b, l2⟩⟩
  case cons.nil => exact h
  case cons.cons => exact h
  case nil =>
      rcases h2 : classFilter st.db (if u = "" then g else u) c with _ | ⟨a, _ | ⟨b, l2⟩⟩
      case cons.nil => exact h
      case cons.cons => exact h
      case nil =>
          by_cases hc : be.createOk
          · rw [hc]
            simp only [if_true, eq_self_iff_true, markState_db, emit_db, setStateDb_setStateDb]
            refine noRunning_setStateDb ?_ (by simp)
            intro x hx hxu
            rcases List.mem_append.mp hx with hx | hx
            · exact h x hx
            · rw [List.mem_singleton] at hx
              subst hx
              exact absurd rfl hxu
          · rw [eq_false_of_ne_true hc]
            simp only [Bool.false_eq_true, if_false]
            generalize (if u = "" then g else u) = u'
            have hins : ({ tpl with uuid := u', rclass := c } : Resource)
                ∈ st.db ++ [{ tpl with uuid := u', rclass := c }] :=
              List.mem_append_right _ (List.mem_singleton_self _)
            have hshape := delete_some_shape be
              (emit (markState ⟨st.db ++ [{ tpl with uuid := u', rclass := c }],
                  st.log ++ [.insertRec u']⟩ u' .running) (.backendCreate u'))
              u' ({ tpl with uuid := u', rclass := c, state := .running }) rfl
              (by
                simp only [emit_db, markState_db]
                exact dbFilter_setStateDb_ne_nil
                  (st.db ++ [{ tpl with uuid := u', rclass := c }]) _ _ _ hins rfl)
            rw [hshape.1]
            intro x hx
            simp only [emit_db, markState_db] at hx
            have hx' := List.mem_filter.mp hx
            have hxu : ¬ x.uuid = u' := by simpa using hx'.2
            rcases mem_setStateDb hx'.1 with ⟨hxu2, _⟩ | ⟨hmem, _⟩
            · exact absurd hxu2 hxu
            · rcases List.mem_append.mp hmem with hm | hm
              · exact h x hm
              · rw [List.mem_singleton] at hm
                subst hm
                exact absurd rfl hxu


theorem remove_permissions_some_log (be : Backend) (st : St) (u' : String) (r : Resource) :
    (ResourceManager.remove_permissions be st u' (some r)).2.log
      = st.log ++ [.stateMark r.uuid .running, .permRowsDeleted r.uuid, .backendRemovePerms u']
          ++ (if be.removePermsOk then [Event.stateMark r.uuid .processed]
              else [Event.stateMark r.uuid .invalid, Event.dirtyMark r.uuid]) := by
  unfold ResourceManager.remove_permissions
  by_cases hrp : be.removePermsOk <;>
    simp [resolve, hrp, markState_log, emit_log, markDirty_log]

/-- `set_permissions` on an explicit instance records the applied perm
spec. -/
theorem set_permissions_mem_applyPerms (be : Backend) (st : St) (u : String)
    (r : Resource) (p : PermSpec) :
    Event.applyPerms r.uuid p ∈ (ResourceManager.set_permissions be st u (some r) p).2.log := by
  unfold ResourceManager.set_permissions
  by_cases hi : be.setPermsInternalOk <;>
    simp [resolve, hi, remove_permissions_some_log, markState_log, emit_log, markDirty_log]

/-- `update` only ever appends to the event log. -/
theorem update_log_extends (be : Backend) (st : St) (u : String) (inst : Option Resource)
    (xf : Option String) (md : Bool) (pu : String) :
    st.log <+: (ResourceManager.update be st u inst xf md pu).2.log := by
  unfold ResourceManager.update
  cases inst with
  | none =>
      cases hg : getInstance st.db u with
      | none =>
          simp only [resolve, hg]
          exact List.prefix_rfl
      | some r =>
          simp only [resolve, hg]
          by_cases h1 : (md = true ∧ xf.isSome = true) <;>
            by_cases h2 : be.xmlReadOk <;>
              by_cases h3 : (¬ u = "" ∧ ¬ u = pu) <;>
                by_cases h4 : be.updateOk <;>
                  by_cases h5 : be.storersOk <;>
                    by_cases h6 : be.tasksOk <;>
                      (simp [h1, h2, h3, h4, h5, h6, markState_log, emit_log,
                          markDirty_log, List.append_assoc]
                       try exact List.prefix_append _ _)
  | some r =>
      simp only [resolve]
      by_cases h1 : (md = true ∧ xf.isSome = true) <;>
        by_cases h2 : be.xmlReadOk <;>
          by_cases h3 : (¬ u = "" ∧ ¬ u = pu) <;>
            by_cases h4 : be.updateOk <;>
              by_cases h5 : be.storersOk <;>
                by_cases h6 : be.tasksOk <;>
                  (simp [h1, h2, h3, h4, h5, h6, markState_log, emit_log,
                      markDirty_log, List.append_assoc]
                   try exact List.prefix_append _ _)

/-- `copy` with a failing backend copy (after a successful storage copy):
the record copy stays in the store, the source is marked PROCESSED, and
the *source instance* is returned. -/
theorem copy_fail_shape (be : Backend) (st : St) (src : Resource) (uuidArg : String)
    (perms : PermSpec) (g : String)
    (hso : be.storageCopyOk = true) (hco : be.copyOk = false) :
    (ResourceManager.copy be st (some src) uuidArg perms g).1
        = some { src with state := .processed } ∧
    (∃ x ∈ (ResourceManager.copy be st (some src) uuidArg perms g).2.db,
        x.uuid = (if uuidArg = "" then g else uuidArg)) ∧
    (∀ x ∈ dbFilter (ResourceManager.copy be st (some src) uuidArg perms g).2.db src.uuid,
        x.state = .processed) := by
  simp only [ResourceManager.copy]
  rw [if_neg (by simp [hso]), if_pos (by simp [hco])]
  refine ⟨rfl, ?_, ?_⟩
  · simp only [markState_db, emit_db]
    rcases dbFilter_exceptStateDb_mem
        ((markState st src.uuid .running).db
          ++ [{ src with uuid := (if uuidArg = "" then g else uuidArg), state := .running }])
        src.uuid
        ({ src with uuid := (if uuidArg = "" then g else uuidArg), state := .running })
        (List.mem_append_right _ (List.mem_singleton_self _)) .processed with ⟨x, hx, hxu⟩
    exact ⟨x, hx, hxu⟩
  · intro x hx
    simp only [markState_db, emit_db] at hx
    have hx' := List.mem_filter.mp hx
    have hxu : x.uuid = src.uuid := by simpa using hx'.2
    rcases mem_setStateDb hx'.1 with ⟨_, hst⟩ | ⟨_, hne⟩
    · exact hst
    · exact absurd hxu hne

/-- `copy` with a succeeding backend copy applies the anonymous-stripped
source perm spec to the clone via `set_permissions`. -/
theorem copy_ok_applyPerms (be : Backend) (st : St) (src : Resource) (uuidArg : String)
    (perms : PermSpec) (g : String)
    (hso : be.storageCopyOk = true) (hco : be.copyOk = true) :
    Event.applyPerms (if uuidArg = "" then g else uuidArg) (ResourceManager.stripAnon perms)
      ∈ (ResourceManager.copy be st (some src) uuidArg perms g).2.log := by
  simp only [ResourceManager.copy]
  rw [if_neg (by simp [hso]), if_neg (by simp [hco])]
  refine (update_log_extends be _ (if uuidArg = "" then g else uuidArg) _ none false "").subset ?_
  exact set_permissions_mem_applyPerms be _ _ _ _

/-- After `copy`, every record other than (possibly) the clone is out of
the RUNNING state; on a failed backend copy the clone itself stays
RUNNING. -/
theorem noRunning_copy (be : Backend) (st : St) (src : Resource) (uuidArg : String)
    (perms : PermSpec) (g : String) (h : noRunning st.db) :
    ∀ x ∈ (ResourceManager.copy be st (some src) uuidArg perms g).2.db,
      x.uuid ≠ (if uuidArg = "" then g else uuidArg) → x.state ≠ .running := by
  simp only [ResourceManager.copy]
  by_cases hso : be.storageCopyOk
  case neg =>
      rw [if_pos (by simp [hso])]
      intro x hx hxne
      simp only [markState_db, emit_db] at hx
      rcases mem_setStateDb hx with ⟨_, hst⟩ | ⟨hmem, hxsrc⟩
      · rw [hst]
        simp
      · rcases List.mem_append.mp hmem with hm | hm
        · rcases mem_setStateDb hm with ⟨hxu2, _⟩ | ⟨hmm, _⟩
          · exact absurd hxu2 hxsrc
          · exact h x hmm
        · rw [List.mem_singleton] at hm
          subst hm
          exact absurd rfl hxne
  case pos =>
      rw [if_neg (by simp [hso])]
      by_cases hco : be.copyOk
      case neg =>
          rw [if_pos (by simp [hco])]
          intro x hx hxne
          simp only [markState_db, emit_db] at hx
          rcases mem_setStateDb hx with ⟨_, hst⟩ | ⟨hmem, hxsrc⟩
          · rw [hst]
            simp
          · rcases List.mem_append.mp hmem with hm | hm
            · rcases mem_setStateDb hm with ⟨hxu2, _⟩ | ⟨hmm, _⟩
              · exact absurd hxu2 hxsrc
              · exact h x hmm
            · rw [List.mem_singleton] at hm
              subst hm
              exact absurd rfl hxne
      case pos =>
          rw [if_neg (by simp [hco])]
          intro x hx hxne
          refine noRunning_update be _ _ _ _ _ _ ?_ x hx
          refine noRunning_set_permissions be _ _ _ _ ?_
          simp only [markState_db, emit_db]
          refine noRunning_setStateDb ?_ (by simp)
          intro y hy hyne2
          rcases mem_setStateDb hy with ⟨_, hst⟩ | ⟨hmm, hysrc⟩
          · rw [hst]; simp
          · rcases List.mem_append.mp hmm with hm2 | hm2
            · rcases mem_setStateDb hm2 with ⟨hyu, _⟩ | ⟨hmm2, _⟩
              · exact absurd hyu hysrc
              · exact h y hmm2
            · rw [List.mem_singleton] at hm2
              subst hm2
              exact absurd rfl hyne2


theorem mem_setDirtyDb {db : List Resource} {u : String} {x : Resource}
    (hx : x ∈ setDirtyDb db u) :
    (∃ y ∈ db, y.uuid = u ∧ x = { y with dirty := true }) ∨ (x ∈ db ∧ x.uuid ≠ u) := by
  rcases List.mem_map.mp hx with ⟨y, hy, hxy⟩
  by_cases hu : y.uuid = u
  · rw [if_pos hu] at hxy
    exact Or.inl ⟨y, hy, hu, hxy.symm⟩
  · rw [if_neg hu] at hxy
    subst hxy
    exact Or.inr ⟨hy, hu⟩

theorem stripAnon_users_none (p : PermSpec) :
    alookup (ResourceManager.stripAnon p).users UserP.anonymousUser = none := by
  unfold ResourceManager.stripAnon
  dsimp only
  split
  · exact alookup_aerase _ _
  · next h =>
      rw [← Option.not_isSome_iff_eq_none]
      exact h

theorem stripAnon_groups_none (p : PermSpec) :
    alookup (ResourceManager.stripAnon p).groups GroupP.anonymousGroup = none := by
  unfold ResourceManager.stripAnon
  dsimp only
  split
  · exact alookup_aerase _ _
  · next h =>
      rw [← Option.not_isSome_iff_eq_none]
      exact h

theorem gwp_fold_users_groups (l : List UserP) (vp : List String) (p : PermSpec) :
    (l.foldl (fun acc gm =>
      { acc with users := (ainsert acc.users gm
          (pyUnion ((alookup acc.users gm).getD []) (vp ++ ADMIN_PERMISSIONS))) }) p).groups
      = p.groups := by
  induction l generalizing p with
  | nil => rfl
  | cons a tl ih =>
      rw [List.foldl_cons, ih]

theorem gwp_fold_groups_anon (l : List (GroupP × List String)) (p : PermSpec) :
    alookup ((l.foldl (fun acc q =>
      if q.1 ≠ GroupP.anonymousGroup ∧ q.1 ≠ GroupP.registeredMembers then
        { acc with groups := (ainsert acc.groups q.1
            (pyUnion ((alookup acc.groups q.1).getD []) q.2)) }
      else acc) p).groups) GroupP.anonymousGroup
      = alookup p.groups GroupP.anonymousGroup := by
  induction l generalizing p with
  | nil => rfl
  | cons a tl ih =>
      rw [List.foldl_cons, ih]
      by_cases ha : (a.1 ≠ GroupP.anonymousGroup ∧ a.1 ≠ GroupP.registeredMembers)
      · rw [if_pos ha]
        exact alookup_ainsert_ne _ _ _ _ (Ne.symm ha.1)
      · rw [if_neg ha]

/-- The published-branch union of `get_workflow_permissions`: with workflow
gating active, the anonymous group ends with exactly its pre-existing
tokens united with the view(+download) tokens. -/
theorem gwp_published_anon_union (cfg : WorkflowCfg) (gms : List UserP)
    (mgp : List (GroupP × List String)) (r : Resource) (p : PermSpec) (t : String)
    (hcfg : cfg.adminModerateUploads = true ∨ cfg.resourcePublishing = true)
    (hpub : r.isPublished = true) :
    (t ∈ (alookup (ResourceManager.get_workflow_permissions cfg gms mgp r p).groups
          GroupP.anonymousGroup).getD []
      ↔ (t ∈ (alookup p.groups GroupP.anonymousGroup).getD []
          ∨ t ∈ viewPermsFor r.rclass)) := by
  simp only [ResourceManager.get_workflow_permissions]
  rw [if_pos hcfg, if_pos hpub]
  rw [alookup_ainsert_self]
  simp only [Option.getD_some]
  rw [mem_pyUnion]
  by_cases happ : r.isApproved = true
  · rw [if_pos happ]
    by_cases haa : cfg.autoAssignRegistered = true
    · rw [if_pos haa]
      have hne : GroupP.anonymousGroup ≠ GroupP.registeredMembers := by decide
      rw [show ∀ s2 : PermSpec,
          ({ s2 with groups := (ainsert s2.groups GroupP.registeredMembers
              (pyUnion ((alookup s2.groups GroupP.registeredMembers).getD [])
                (viewPermsFor r.rclass))) } : PermSpec).groups
            = ainsert s2.groups GroupP.registeredMembers
              (pyUnion ((alookup s2.groups GroupP.registeredMembers).getD [])
                (viewPermsFor r.rclass)) from fun _ => rfl]
      rw [alookup_ainsert_ne _ _ _ _ hne]
      rw [gwp_fold_groups_anon, gwp_fold_users_groups]
    · rw [if_neg haa]
      rw [show ∀ s2 : PermSpec,
          ({ s2 with groups := (ainsert s2.groups GroupP.anonymousGroup
              (pyUnion ((alookup s2.groups GroupP.anonymousGroup).getD [])
                (viewPermsFor r.rclass))) } : PermSpec).groups
            = ainsert s2.groups GroupP.anonymousGroup
              (pyUnion ((alookup s2.groups GroupP.anonymousGroup).getD [])
                (viewPermsFor r.rclass)) from fun _ => rfl]
      rw [alookup_ainsert_self]
      simp only [Option.getD_some]
      rw [mem_pyUnion]
      rw [gwp_fold_groups_anon, gwp_fold_users_groups]
      tauto
  · rw [if_neg happ]
    rw [gwp_fold_groups_anon, gwp_fold_users_groups]


/-! ### The claims -/

/-- C1 (counterexample): the claim says that after every lifecycle
operation (set_thumbnail included) an existing resource is observed
PROCESSED or INVALID, never RUNNING.  False: a `set_thumbnail` whose
delegated call raises returns with the resource still RUNNING (the except
at manager.py 932-933 only logs). -/
theorem C1_counterexample :
    ¬ (∀ x ∈ (ResourceManager.set_thumbnail beThumbFail (⟨[rDoc], []⟩ : St)
          "u1" (some rDoc) true).2.db,
        x.state = PState.processed ∨ x.state = PState.invalid) := by
  decide

/-- C1 (amended): starting from a store with no RUNNING resource, create,
update, delete, remove_permissions and set_permissions leave no resource
RUNNING, on every oracle outcome; copy leaves no resource RUNNING other
than (possibly) the clone record it inserted.  set_thumbnail is excluded
(see the counterexample), and a failed copy leaves its clone RUNNING. -/
theorem C1_amended_no_running (be : Backend) (st : St) (h : noRunning st.db) :
    (∀ u c tpl g, noRunning (ResourceManager.create be st u c tpl g).2.db) ∧
    (∀ u inst xf md pu, noRunning (ResourceManager.update be st u inst xf md pu).2.db) ∧
    (∀ u, noRunning (ResourceManager.delete be st u none).2.db) ∧
    (∀ u r, r.uuid = u → noRunning (ResourceManager.delete be st u (some r)).2.db) ∧
    (∀ u inst, noRunning (ResourceManager.remove_permissions be st u inst).2.db) ∧
    (∀ u inst p, noRunning (ResourceManager.set_permissions be st u inst p).2.db) ∧
    (∀ src uArg perms g, ∀ x ∈ (ResourceManager.copy be st (some src) uArg perms g).2.db,
        x.uuid ≠ (if uArg = "" then g else uArg) → x.state ≠ PState.running) :=
  ⟨fun u c tpl g => noRunning_create be st u c tpl g h,
   fun u inst xf md pu => noRunning_update be st u inst xf md pu h,
   fun u => noRunning_delete_none be st u h,
   fun u r hru => noRunning_delete_some be st u r hru h,
   fun u inst => noRunning_remove_permissions be st u inst h,
   fun u inst p => noRunning_set_permissions be st u inst p h,
   fun src uArg perms g => noRunning_copy be st src uArg perms g h⟩

theorem C1_amended_witness :
    noRunning (ResourceManager.delete allOk (⟨[rDoc], []⟩ : St) "u1" none).2.db :=
  (C1_amended_no_running allOk ⟨[rDoc], []⟩ (by decide)).2.2.1 "u1"

/-- C2: `create` is idempotent.  When a resource of the requested class
with the given uuid already exists, `create` returns it and leaves the
whole observable state (store and event log — hence no insert, no backend
create, no state transition) unchanged, and a second call returns the
same resource again. -/
theorem C2_create_idempotent (be : Backend) (st : St) (u : String) (c : RClass)
    (tpl : Resource) (g : String) (r : Resource)
    (h : classFilter st.db u c = [r]) :
    ResourceManager.create be st u c tpl g = (.ok r, st) ∧
    ResourceManager.create be (ResourceManager.create be st u c tpl g).2 u c tpl g
      = (.ok r, st) := by
  have h1 := create_of_found be st u c tpl g r h
  refine ⟨h1, ?_⟩
  rw [h1]
  exact create_of_found be st u c tpl g r h

theorem C2_witness :
    ResourceManager.create allOk (⟨[rDoc], []⟩ : St) "u1" RClass.document rDoc "g"
      = (.ok rDoc, (⟨[rDoc], []⟩ : St)) :=
  (C2_create_idempotent allOk ⟨[rDoc], []⟩ "u1" RClass.document rDoc "g" rDoc
    (by decide)).1

/-- C3 (counterexample): the claim says a failing `create` transitions the
resource to INVALID.  False: on a backend-create failure the code (335-338)
only logs, calls `delete` and re-raises — no INVALID mark is ever
recorded. -/
theorem C3_counterexample :
    (ResourceManager.create beCreateFail (⟨[], []⟩ : St) "u1" RClass.document rDoc "g").1
        = Except.error Err.backendFailure ∧
    Event.stateMark "u1" PState.invalid
      ∉ (ResourceManager.create beCreateFail (⟨[], []⟩ : St) "u1"
          RClass.document rDoc "g").2.log := by
  decide

/-- C3 (amended): if the delegated backend create fails after the insert,
`create` invokes `delete` to compensate (the base record is gone) and
re-raises the failure; it performs no INVALID transition, the record is
removed instead. -/
theorem C3_amended (be : Backend) (st : St) (u : String) (c : RClass) (tpl : Resource)
    (g : String) (hu : u ≠ "") (habs : classFilter st.db u c = [])
    (hbe : be.createOk = false) :
    (ResourceManager.create be st u c tpl g).1 = .error .backendFailure ∧
    Event.removeBase u ∈ (ResourceManager.create be st u c tpl g).2.log ∧
    dbFilter (ResourceManager.create be st u c tpl g).2.db u = [] := by
  obtain ⟨h1, h2, h3⟩ := create_fail_shape be st u c tpl g hu habs hbe
  exact ⟨h1, h3, h2⟩

theorem C3_witness :
    Event.removeBase "u1" ∈ (ResourceManager.create beCreateFail (⟨[], []⟩ : St) "u1"
        RClass.document rDoc "g").2.log :=
  (C3_amended beCreateFail ⟨[], []⟩ "u1" RClass.document rDoc "g" (by decide)
    (by decide) rfl).2.1

/-- C4: for a resource that exists (is uniquely resolvable) when `delete`
is called, no base record with that uuid remains after the call — whatever
the oracle decides for the concrete delete, every cascade step, the
permission clean-up and the real-instance delete — and `delete` itself
never raises (every cascade failure is swallowed). -/
theorem C4_delete_base_absent (be : Backend) (st : St) (u : String) (r : Resource)
    (h : getInstance st.db u = some r) :
    dbFilter (ResourceManager.delete be st u none).2.db u = [] ∧
    dbFilter (ResourceManager.delete be st u (some r)).2.db u = [] ∧
    (∃ n, (ResourceManager.delete be st u none).1 = .ok n) := by
  obtain ⟨hru, hfl⟩ := getInstance_eq_some h
  have hex : (dbFilter st.db u).length ≠ 0 := by rw [hfl]; simp
  have heq : ResourceManager.delete be st u none
      = ResourceManager.delete be st u (some r) := by
    unfold ResourceManager.delete
    simp only [resolve, h]
  have hshape := delete_some_shape be st u r hru hex
  refine ⟨?_, ?_, ?_⟩
  · rw [heq, hshape.1]
    exact dbFilter_filter_ne _ _
  · rw [hshape.1]
    exact dbFilter_filter_ne _ _
  · rw [heq, hshape.2.2]
    exact ⟨_, rfl⟩

theorem C4_witness :
    dbFilter (ResourceManager.delete beDeleteFail (⟨[rVec], []⟩ : St) "u2" none).2.db
      "u2" = [] :=
  (C4_delete_base_absent beDeleteFail ⟨[rVec], []⟩ "u2" rVec (by decide)).1

/-- C5 (counterexample): the claim says `delete` returns 1 whenever the
target existed.  False: when the concrete-manager delete raises, the outer
except swallows it and control reaches `return 0` — although the resource
existed and the base record was in fact removed by the finally block. -/
theorem C5_counterexample :
    getInstance ([rDoc] : List Resource) "u1" = some rDoc ∧
    (ResourceManager.delete beDeleteFail (⟨[rDoc], []⟩ : St) "u1" none).1 = .ok 0 ∧
    dbFilter (ResourceManager.delete beDeleteFail (⟨[rDoc], []⟩ : St) "u1" none).2.db
      "u1" = [] := by
  decide

/-- C5 (amended): on a non-existent uuid `delete` returns 0 and performs no
mutation; on an existing resource it returns 1 exactly when neither the
concrete-manager delete nor the real-instance delete raised, and 0
otherwise (the base record being removed regardless). -/
theorem C5_amended (be : Backend) (st : St) (u : String) (hu : u ≠ "") :
    (dbFilter st.db u = [] → ResourceManager.delete be st u none = (.ok 0, st)) ∧
    (∀ r, getInstance st.db u = some r →
      (ResourceManager.delete be st u none).1
        = .ok (if be.deleteOk ∧ be.realDeleteOk then 1 else 0)) := by
  constructor
  · intro hnil
    have hg : getInstance st.db u = none := by
      unfold getInstance
      rw [hnil]
      simp
    unfold ResourceManager.delete
    simp only [resolve, hg]
    rw [if_neg hu]
  · intro r hr
    obtain ⟨hru, hfl⟩ := getInstance_eq_some hr
    have hex : (dbFilter st.db u).length ≠ 0 := by rw [hfl]; simp
    have heq : ResourceManager.delete be st u none
        = ResourceManager.delete be st u (some r) := by
      unfold ResourceManager.delete
      simp only [resolve, hr]
    rw [heq]
    exact (delete_some_shape be st u r hru hex).2.2

theorem C5_witness :
    (ResourceManager.delete allOk (⟨[rDoc], []⟩ : St) "u1" none).1 = .ok 1 := by
  have h := (C5_amended allOk ⟨[rDoc], []⟩ "u1" (by decide)).2 rDoc (by decide)
  simpa using h

/-- C6: every exception raised inside `update`'s transaction — the
metadata-file read, the uuid-mismatch ValidationError, the concrete
update, the metadata storers or a workflow task — is swallowed: `update`
returns the resource (it raises nothing, witnessed by its total type)
marked INVALID with the dirty flag set, and persists that state. -/
theorem C6_update_swallows (be : Backend) (st : St) (u : String) (r : Resource)
    (xf : Option String) (md : Bool) (pu : String)
    (hres : getInstance st.db u = some r)
    (hfail : updFails be u xf md pu) :
    (ResourceManager.update be st u none xf md pu).1
        = some { r with state := PState.invalid, dirty := true } ∧
    (∀ x ∈ dbFilter (ResourceManager.update be st u none xf md pu).2.db r.uuid,
        x.state = PState.invalid ∧ x.dirty = true) := by
  have heq : ResourceManager.update be st u none xf md pu
      = ResourceManager.update be st u (some r) xf md pu := by
    unfold ResourceManager.update
    simp only [resolve, hres]
  rw [heq]
  have hsh := update_some_shape be st u r xf md pu
  constructor
  · rw [hsh.1, if_pos hfail]
  · rw [hsh.2, if_pos hfail]
    intro x hx
    have hx' := List.mem_filter.mp hx
    have hxu : x.uuid = r.uuid := by simpa using hx'.2
    rcases mem_setDirtyDb hx'.1 with ⟨y, hy, hyu, hxy⟩ | ⟨_, hne⟩
    · rcases mem_setStateDb hy with ⟨_, hst⟩ | ⟨_, hyne⟩
      · rw [hxy]
        simpa using hst
      · exact absurd hyu hyne
    · exact absurd hxu hne

theorem C6_witness :
    (ResourceManager.update beUpdateFail (⟨[rDoc], []⟩ : St) "u1" none none false "").1
      = some { rDoc with state := PState.invalid, dirty := true } :=
  (C6_update_swallows beUpdateFail ⟨[rDoc], []⟩ "u1" rDoc none false ""
    (by decide) (by decide)).1

/-- C7: `append` is restricted to vector datasets, and no backend data
mutation and no trailing update happens in either failure case (the state
is returned untouched).  For a non-dataset instance it fails with the
policy exception "Append data is available only for Layers" as the claim
says; for an existing raster dataset, however, the code reaches
`return is_valid` with `is_valid` never assigned (manager.py 518-526), so
the failure is an UnboundLocalError, not the policy error the claim and
spec name — the code slips where the intent is a PolicyViolation. -/
theorem C7_append_restriction (st : St) :
    ResourceManager.append allOk st rRaster = (.error Err.unboundLocal, st) ∧
    ResourceManager.append allOk st rDoc
      = (.error (Err.policyViolation "Append data is available only for Layers"), st) := by
  constructor <;> rfl

/-- C8: the perm spec `copy` hands to `set_permissions` for the clone is
the captured source spec stripped of its anonymous entries: it contains
no AnonymousUser user entry and no anonymous-group entry. -/
theorem C8_copy_strips_anon (be : Backend) (st : St) (src : Resource) (uArg : String)
    (perms : PermSpec) (g : String)
    (h1 : be.storageCopyOk = true) (h2 : be.copyOk = true) :
    Event.applyPerms (if uArg = "" then g else uArg) (ResourceManager.stripAnon perms)
      ∈ (ResourceManager.copy be st (some src) uArg perms g).2.log ∧
    alookup (ResourceManager.stripAnon perms).users UserP.anonymousUser = none ∧
    alookup (ResourceManager.stripAnon perms).groups GroupP.anonymousGroup = none :=
  ⟨copy_ok_applyPerms be st src uArg perms g h1 h2,
   stripAnon_users_none perms, stripAnon_groups_none perms⟩

theorem C8_witness :
    alookup (ResourceManager.stripAnon pSpec1).users UserP.anonymousUser = none :=
  (C8_copy_strips_anon allOk ⟨[rVec], []⟩ rVec "" pSpec1 "c1" rfl rfl).2.1

/-- C9 (counterexample): the claim says `copy` returns None on a
backend-copy failure.  False: after the except and finally blocks control
falls through to `return instance` (manager.py 485) — the source instance,
marked PROCESSED, is returned. -/
theorem C9_counterexample :
    (ResourceManager.copy beCopyFail (⟨[rDoc], []⟩ : St) (some rDoc) "" pSpec1 "c1").1
      = some { rDoc with state := PState.processed } ∧
    (ResourceManager.copy beCopyFail (⟨[rDoc], []⟩ : St) (some rDoc) "" pSpec1 "c1").1
      ≠ none := by
  decide

/-- C9 (amended): on a backend-copy failure the record copy is not rolled
back (a record with the clone's uuid remains), the source instance is
marked PROCESSED regardless, and `copy` returns the source instance — not
None, so callers cannot detect the failure from a None result. -/
theorem C9_amended (be : Backend) (st : St) (src : Resource) (uArg : String)
    (perms : PermSpec) (g : String)
    (h1 : be.storageCopyOk = true) (h2 : be.copyOk = false) :
    (ResourceManager.copy be st (some src) uArg perms g).1
        = some { src with state := PState.processed } ∧
    (∃ x ∈ (ResourceManager.copy be st (some src) uArg perms g).2.db,
        x.uuid = (if uArg = "" then g else uArg)) ∧
    (∀ x ∈ dbFilter (ResourceManager.copy be st (some src) uArg perms g).2.db src.uuid,
        x.state = PState.processed) :=
  copy_fail_shape be st src uArg perms g h1 h2

theorem C9_witness :
    (ResourceManager.copy beCopyFail (⟨[rVec], []⟩ : St) (some rVec) "" pSpec1 "c1").1
      = some { rVec with state := PState.processed } :=
  (C9_amended beCopyFail ⟨[rVec], []⟩ rVec "" pSpec1 "c1" rfl rfl).1

/-- C10 (counterexample): the claim asserts the published-branch union for
every published resource, but the whole workflow block (manager.py 873) is
skipped when both ADMIN_MODERATE_UPLOADS and RESOURCE_PUBLISHING are off:
a published resource then gets no anonymous view grant at all. -/
theorem C10_counterexample :
    ¬ ("view_resourcebase" ∈ (alookup (ResourceManager.get_workflow_permissions cfgOff
          [] [] rPub ⟨[], []⟩).groups GroupP.anonymousGroup).getD []) := by
  decide

/-- C10 (amended): when ADMIN_MODERATE_UPLOADS or RESOURCE_PUBLISHING is
enabled and the resource is published, the perm spec computed by
`get_workflow_permissions` maps the anonymous group to exactly the union
of its pre-existing tokens with the view(+download for downloadable
types) tokens — union, never replace — regardless of the approved branch,
the group managers and the member groups. -/
theorem C10_published_anon_view (cfg : WorkflowCfg) (gms : List UserP)
    (mgp : List (GroupP × List String)) (r : Resource) (p : PermSpec) (t : String)
    (hcfg : cfg.adminModerateUploads = true ∨ cfg.resourcePublishing = true)
    (hpub : r.isPublished = true) :
    (t ∈ (alookup (ResourceManager.get_workflow_permissions cfg gms mgp r p).groups
          GroupP.anonymousGroup).getD []
      ↔ (t ∈ (alookup p.groups GroupP.anonymousGroup).getD []
          ∨ t ∈ viewPermsFor r.rclass)) :=
  gwp_published_anon_union cfg gms mgp r p t hcfg hpub

theorem C10_witness :
    ("view_resourcebase" ∈ (alookup (ResourceManager.get_workflow_permissions
        (⟨true, false, false⟩ : WorkflowCfg) [] [] rPub (⟨[], []⟩ : PermSpec)).groups
        GroupP.anonymousGroup).getD []
      ↔ ("view_resourcebase" ∈ (alookup (⟨[], []⟩ : PermSpec).groups
            GroupP.anonymousGroup).getD []
          ∨ "view_resourcebase" ∈ viewPermsFor rPub.rclass)) :=
  C10_published_anon_view ⟨true, false, false⟩ [] [] rPub ⟨[], []⟩ "view_resourcebase"
    (Or.inr rfl) rfl

end GeoNode
